import Mathlib

/-!
Shallow embedding of the `el` text editor (src/el/edit.py): the `FileBuffer`
line-buffer operations (`get_text_view`, `insert_char_at`, `delete_char_at`)
and the `TextEditor` key-dispatch state machine (`handle_keyboard_input`).

Strings are modelled as `List Char`; Python integers as `Int`.  Python
sequence slicing, indexing and `str.split`/`str.join` are modelled by
explicit total functions (`pySlice`, `pyGetElem`, `splitSep`, `joinSep`).
A Python operation that can raise (index out of range) is modelled with
`Option` / an explicit `fault` result.
-/

namespace Elumen

/-- The platform line separator (`os.linesep` on Linux): a single newline. -/
def linesep : Char := '\n'

/-- Normalise one bound of a Python slice `l[a:b]` for a sequence of length
`n`: negative bounds count from the end and are clamped below by `0`;
non-negative bounds are clamped above by `n`. -/
def pyBound (n : Nat) (i : Int) : Nat :=
  if i < 0 then ((n : Int) + i).toNat else min i.toNat n

/-- Python slice `l[a:b]` (step 1): the elements with normalised indices in
`[pyBound n a, pyBound n b)`.  Never faults. -/
def pySlice (l : List α) (a b : Int) : List α :=
  (l.take (pyBound l.length b)).drop (pyBound l.length a)

/-- Python slice with omitted start, `l[:b]`. -/
def pySliceTo (l : List α) (b : Int) : List α := pySlice l 0 b

/-- Python slice with omitted end, `l[a:]`. -/
def pySliceFrom (l : List α) (a : Int) : List α := pySlice l a (l.length : Int)

/-- Effective index of Python element access `l[i]` for length `n`:
negative indices count from the end. -/
def pyIndex (n : Nat) (i : Int) : Int :=
  if i < 0 then (n : Int) + i else i

/-- Python element read `l[i]`: `none` models the `IndexError` raised when
the effective index is out of range. -/
def pyGetElem (l : List α) (i : Int) : Option α :=
  let j := pyIndex l.length i
  if 0 ≤ j ∧ j < (l.length : Int) then l.get? j.toNat else none

/-- Python element write `l[i] = a` (used only after a successful read of
the same index, so the effective index is in range). -/
def pySetElem (l : List α) (i : Int) (a : α) : List α :=
  l.set (pyIndex l.length i).toNat a

/-- Helper for `splitSep`: prepend a character to the first segment. -/
def consHead (c : Char) : List (List Char) → List (List Char)
  | [] => [[c]]
  | r :: rs => (c :: r) :: rs

/-- Python `content.split(os.linesep)` for the single-character separator:
splits at every occurrence, keeping empty segments; the result is never
empty (`"".split` gives `[""]`). -/
def splitSep : List Char → List (List Char)
  | [] => [[]]
  | c :: cs => if c = linesep then [] :: splitSep cs else consHead c (splitSep cs)

/-- Python `os.linesep.join(rows)`. -/
def joinSep : List (List Char) → List Char
  | [] => []
  | [r] => r
  | r :: rs => r ++ linesep :: joinSep rs

/-- `FileBuffer.get_text_view` (src/el/edit.py:18-29): split the content on
the line separator, slice the rows to `[start_line:end_line]`, slice each
selected row to `[start_column:end_column]`, and rejoin with the separator. -/
def get_text_view (content : List Char) (start_line end_line start_column end_column : Int) :
    List Char :=
  let rows := pySlice (splitSep content) start_line end_line
  let trimmed_rows := rows.map (fun row => pySlice row start_column end_column)
  joinSep trimmed_rows

/-- `FileBuffer.insert_char_at` (src/el/edit.py:31-40): splice `char` into
row `line` just before `column` and rejoin.  The row access `rows[line]` is
not bounds-checked in the source; an out-of-range effective index is a
Python `IndexError`, modelled as `none`. -/
def insert_char_at (content char : List Char) (line column : Int) : Option (List Char) :=
  let rows := splitSep content
  match pyGetElem rows line with
  | none => none
  | some row =>
      some (joinSep (pySetElem rows line (pySliceTo row column ++ char ++ pySliceFrom row column)))

/-- `FileBuffer.delete_char_at` (src/el/edit.py:42-56): re-attach the
separator to every split segment, drop a synthetic trailing row equal to
the bare separator, then (when `0 <= line <= len(rows)-1`) either truncate
the row with `row[:column]` (the `column == -1` sentinel) or remove the
single character `row[:column] + row[column+1:]`; finally concatenate the
rows with no separator re-insertion. -/
def delete_char_at (content : List Char) (line column : Int) : List Char :=
  let rows0 := (splitSep content).map (fun x => x ++ [linesep])
  let rows := if rows0.getLast? = some [linesep] then rows0.dropLast else rows0
  if 0 ≤ line ∧ line ≤ (rows.length : Int) - 1 then
    let row := rows.getD line.toNat []
    let row' := if column = -1 then pySliceTo row column
                else pySliceTo row column ++ pySliceFrom row (column + 1)
    (rows.set line.toNat row').flatten
  else
    rows.flatten

/-- The `TextEditor` state that the key-dispatch logic reads and writes:
buffer content, the terminal dimensions fixed at startup, and the viewport
scroll offsets (src/el/edit.py:59-65). -/
structure TextEditor where
  content : List Char
  term_height : Int
  term_width : Int
  text_line_start : Int
  text_column_start : Int
  deriving DecidableEq, Repr

/-- Key code constants: `curses.KEY_*` (ncurses values) and the module
constants of src/el/edit.py:9-11. -/
def KEY_DOWN : Int := 258

def KEY_UP : Int := 259

def KEY_LEFT : Int := 260

def KEY_RIGHT : Int := 261

def KEY_DC : Int := 330

def KEY_BACKSPACE : Int := 127

def KEY_ESC : Int := 27

def KEY_ENTER : Int := 10

/-- `curses.ascii.isprint` on an int key code. -/
abbrev ascii_isprint (key : Int) : Prop := 32 ≤ key ∧ key ≤ 126

/-- `curses.ascii.isblank` on an int key code (tab or space). -/
abbrev ascii_isblank (key : Int) : Prop := key = 9 ∨ key = 32

/-- `TextEditor.text_line_end` (src/el/edit.py:120-124). -/
def text_line_end (e : TextEditor) : Int := e.text_line_start + e.term_height - 1

/-- `TextEditor.text_column_end` (src/el/edit.py:126-130), exactly as
written in the source: it reads `text_line_start`, not `text_column_start`. -/
def text_column_end (e : TextEditor) : Int := e.text_line_start + e.term_width - 1

/-- `TextEditor.can_scroll_down` (src/el/edit.py:132-137). -/
abbrev can_scroll_down (e : TextEditor) (y : Int) : Prop :=
  y = e.term_height - 2 ∧ text_line_end e < ((splitSep e.content).length : Int)

/-- `TextEditor.can_scroll_up` (src/el/edit.py:139-144): Python truthiness
of `text_line_start` is `≠ 0`. -/
abbrev can_scroll_up (e : TextEditor) (y : Int) : Prop :=
  y = 0 ∧ e.text_line_start ≠ 0

/-- The status message `f"Unknown key: {key}"`. -/
def unknown_key_message (key : Int) : List Char :=
  "Unknown key: ".data ++ (toString key).data

/-- Result of one key dispatch: the next editor state with the returned
cursor and message, process exit (Escape), or an uncaught fault. -/
inductive KeyResult where
  | next (editor : TextEditor) (x y : Int) (message : List Char)
  | exited
  | fault
  deriving DecidableEq, Repr

/-- `TextEditor.handle_keyboard_input` (src/el/edit.py:146-195): the
if/elif dispatch chain, in source order. -/
def handle_keyboard_input (e : TextEditor) (x y key : Int) : KeyResult :=
  if key = KEY_LEFT ∧ x > 0 then .next e (x - 1) y []
  else if key = KEY_RIGHT ∧ x < e.term_width then .next e (x + 1) y []
  else if key = KEY_DOWN ∧ y < e.term_height - 2 then .next e x (y + 1) []
  else if key = KEY_DOWN ∧ can_scroll_down e y then
    .next { e with text_line_start := e.text_line_start + 1 } x y []
  else if key = KEY_UP ∧ y > 0 then .next e x (y - 1) []
  else if key = KEY_UP ∧ can_scroll_up e y then
    .next { e with text_line_start := e.text_line_start - 1 } x y []
  else if key = KEY_DC then
    let c := delete_char_at e.content (e.text_line_start + y) (e.text_column_start + x)
    .next { e with content := c } x y []
  else if key = KEY_BACKSPACE then
    if x = 0 ∧ y > 0 then
      let c := delete_char_at e.content (e.text_line_start + y - 1) (-1)
      .next { e with content := c } x y []
    else if x > 0 then
      let c := delete_char_at e.content (e.text_line_start + y) (x - 1)
      .next { e with content := c } x y []
    else .next e x y []
  else if ascii_isprint key ∨ ascii_isblank key then
    match insert_char_at e.content [Char.ofNat key.toNat] (e.text_line_start + y)
        (e.text_column_start + x) with
    | some c => .next { e with content := c } (x + 1) y []
    | none => .fault
  else if key = KEY_ENTER then
    match insert_char_at e.content [linesep] (e.text_line_start + y)
        (e.text_column_start + x) with
    | some c => .next { e with content := c } 0 (y + 1) []
    | none => .fault
  else if key = KEY_ESC then .exited
  else .next e x y (unknown_key_message key)

/-- One step of the editor loop on `(editor, x, y)`: `none` when the
process exits or faults. -/
def step (s : TextEditor × Int × Int) (key : Int) : Option (TextEditor × Int × Int) :=
  match handle_keyboard_input s.1 s.2.1 s.2.2 key with
  | .next e x y _ => some (e, x, y)
  | .exited => none
  | .fault => none

/-- Run the editor loop over a list of key codes. -/
def run (s : TextEditor × Int × Int) : List Int → Option (TextEditor × Int × Int)
  | [] => some s
  | k :: ks =>
      match step s k with
      | some s' => run s' ks
      | none => none

/-- `TextEditor.show_buffer_content` (src/el/edit.py:112-118): the window
string painted at the top-left of the terminal, exactly as the source
computes it (via `text_line_end` and `text_column_end`). -/
def show_buffer_content (e : TextEditor) : List Char :=
  get_text_view e.content e.text_line_start (text_line_end e) e.text_column_start
    (text_column_end e)

/-- Modelled from the spec (rendering clause of the claim): the window the
spec says is painted, `get_text_view(line_start, line_start+height-1,
column_start, column_start+width-1)`. -/
def claimed_window (e : TextEditor) : List Char :=
  get_text_view e.content e.text_line_start (e.text_line_start + e.term_height - 1)
    e.text_column_start (e.text_column_start + e.term_width - 1)

/-- Separator-terminated content built from separator-free rows: the
content whose rows are `segs`, each terminated by the line separator. -/
def linesTerm (segs : List (List Char)) : List Char :=
  (segs.map (fun s => s ++ [linesep])).flatten

/-- Python slice expressed directly as an index on-or-between traversal
(used as the independent, spec-worded formulation of slicing): the
elements at indices `pyBound n a, …, pyBound n b - 1`. -/
def pySliceIdx (l : List α) (a b : Int) : List α :=
  (List.range' (pyBound l.length a) (pyBound l.length b - pyBound l.length a)).filterMap l.get?

/-- Modelled from the spec's words for `get_text_view`: split on the
separator, take the row subsequence `[start_line, end_line)` under Python
slicing, take each row's character subsequence `[start_column,
end_column)`, rejoin with the separator. -/
def get_text_view_slicing (content : List Char) (start_line end_line start_column end_column : Int) :
    List Char :=
  joinSep ((pySliceIdx (splitSep content) start_line end_line).map
    (fun row => pySliceIdx row start_column end_column))

/-- A viewport state with a nonzero vertical scroll, used to exhibit the
`text_column_end` defect: height 3, width 4, scrolled down one row. -/
def c7State : TextEditor :=
  { content := "abcdef\nghijkl\nmnopqr\nstuvwx\n".data, term_height := 3, term_width := 4,
    text_line_start := 1, text_column_start := 0 }

/-- A height-3 session scrolled to the top of a six-row buffer: the cursor
row `height - 2 = 1` is the last visible text row and more rows exist
below. -/
def c8ScrollState : TextEditor :=
  { content := "a\nb\nc\nd\ne\n".data, term_height := 3, term_width := 10,
    text_line_start := 0, text_column_start := 0 }

/-- A height-3 session whose buffer has no rows beyond the viewport. -/
def c8NoScrollState : TextEditor :=
  { content := "a\n".data, term_height := 3, term_width := 10,
    text_line_start := 0, text_column_start := 0 }

/-- Cursor-coordinate invariant claimed for the dispatch loop. -/
abbrev cursorOk (h x y : Int) : Prop := 0 ≤ y ∧ y ≤ h - 2 ∧ 0 ≤ x

/-- What one loop step must guarantee: a fault or exit yields no state;
a next state keeps the terminal height and a legal cursor. -/
def stepOk (e : TextEditor) : Option (TextEditor × Int × Int) → Prop
  | none => True
  | some (e1, x1, y1) => e1.term_height = e.term_height ∧ cursorOk e.term_height x1 y1

/-- An editor session used to exercise the cursor invariant. -/
def c9RunState : TextEditor :=
  { content := "hello\nworld\n".data, term_height := 5, term_width := 10,
    text_line_start := 0, text_column_start := 0 }

/-- A height-3 session on an empty buffer, where two Enter keys push the
cursor row past `height - 2`. -/
def c9Start : TextEditor :=
  { content := [], term_height := 3, term_width := 10,
    text_line_start := 0, text_column_start := 0 }

/-- The fixture content used by the repository's tests. -/
def fixtureContent : List Char := "a-0123456789\nb-0123456789\n\nd-0123456789\n".data

/-- The view-test fixture content (src/test/el/test_edit.py). -/
def viewFixture : List Char := "a-0123456789\nb-0123456789\nc-0123\nd-0123456789\n".data

/-- The rows of `fixtureContent`, separator-free. -/
def segsFixture : List (List Char) :=
  ["a-0123456789".data, "b-0123456789".data, [], "d-0123456789".data]

example : get_text_view viewFixture 0 3 0 8 = "a-012345\nb-012345\nc-0123".data := by decide

example : get_text_view viewFixture 2 4 3 8 = "123\n12345".data := by decide

example : get_text_view viewFixture 0 20 0 20 = viewFixture := by decide

example : delete_char_at fixtureContent 0 0 =
    "-0123456789\nb-0123456789\n\nd-0123456789\n".data := by decide

example : delete_char_at fixtureContent 0 12 =
    "a-0123456789b-0123456789\n\nd-0123456789\n".data := by decide

example : delete_char_at fixtureContent 3 12 =
    "a-0123456789\nb-0123456789\n\nd-0123456789".data := by decide

example : delete_char_at fixtureContent 6 300 = fixtureContent := by decide

example : delete_char_at fixtureContent 4 4 = fixtureContent := by decide

example : delete_char_at fixtureContent 0 (-1) =
    "a-0123456789b-0123456789\n\nd-0123456789\n".data := by decide

example : delete_char_at fixtureContent 0 (-3) =
    "a-012345679\nb-0123456789\n\nd-0123456789\n".data := by decide

example : insert_char_at fixtureContent "A".data 0 0 =
    some "Aa-0123456789\nb-0123456789\n\nd-0123456789\n".data := by decide

example : insert_char_at fixtureContent " ".data 1 5 =
    some "a-0123456789\nb-012 3456789\n\nd-0123456789\n".data := by decide

example : insert_char_at fixtureContent "\n".data 1 5 =
    some "a-0123456789\nb-012\n3456789\n\nd-0123456789\n".data := by decide

/-! ### Helper lemmas about the Python-primitive models -/

theorem pyGetElem_eq_none_iff (l : List α) (i : Int) :
    pyGetElem l i = none ↔ i < -(l.length : Int) ∨ (l.length : Int) ≤ i := by
  simp only [pyGetElem, pyIndex]
  split_ifs with h <;> simp [List.get?_eq_none] <;> omega

theorem insert_char_at_eq_none_iff (content char : List Char) (line column : Int) :
    insert_char_at content char line column = none ↔
      pyGetElem (splitSep content) line = none := by
  unfold insert_char_at
  cases h : pyGetElem (splitSep content) line <;> simp [h]

theorem pySliceTo_of_length_le (row : List α) (column : Int)
    (h : (row.length : Int) ≤ column) : pySliceTo row column = row := by
  unfold pySliceTo pySlice pyBound
  have h0 : ¬ column < 0 := by omega
  have h1 : ¬ (0 : Int) < 0 := by omega
  rw [if_neg h0, if_neg h1]
  have h2 : min column.toNat row.length = row.length := by omega
  have h3 : min (0 : Int).toNat row.length = 0 := by omega
  rw [h2, h3, List.take_length, List.drop_zero]

theorem pySliceFrom_of_length_le (row : List α) (column : Int)
    (h : (row.length : Int) ≤ column) : pySliceFrom row column = [] := by
  unfold pySliceFrom pySlice pyBound
  have h0 : ¬ column < 0 := by omega
  have h1 : ¬ (row.length : Int) < 0 := by omega
  rw [if_neg h0, if_neg h1]
  have h2 : min column.toNat row.length = row.length := by omega
  have h3 : min ((row.length : Int)).toNat row.length = row.length := by omega
  rw [h2, h3, List.take_length, List.drop_length]

theorem consHead_ne_nil (c : Char) (rs : List (List Char)) : consHead c rs ≠ [] := by
  cases rs <;> simp [consHead]

theorem splitSep_ne_nil (l : List Char) : splitSep l ≠ [] := by
  induction l with
  | nil => simp [splitSep]
  | cons c cs ih =>
    unfold splitSep
    split_ifs
    · simp
    · exact consHead_ne_nil c (splitSep cs)

theorem splitSep_append_sepfree (s X : List Char) (hs : linesep ∉ s) :
    splitSep (s ++ linesep :: X) = s :: splitSep X := by
  induction s with
  | nil => simp [splitSep]
  | cons c cs ih =>
    have hc : ¬ c = linesep := fun h => hs (h ▸ List.mem_cons_self c cs)
    have hcs : linesep ∉ cs := fun h => hs (List.mem_cons_of_mem _ h)
    have hstep : splitSep ((c :: cs) ++ linesep :: X)
        = consHead c (splitSep (cs ++ linesep :: X)) := by
      simp [splitSep, hc]
    rw [hstep, ih hcs]
    rfl

theorem linesTerm_cons (s : List Char) (rest : List (List Char)) :
    linesTerm (s :: rest) = s ++ linesep :: linesTerm rest := by
  simp [linesTerm]

theorem splitSep_linesTerm (segs : List (List Char)) (h : ∀ s ∈ segs, linesep ∉ s) :
    splitSep (linesTerm segs) = segs ++ [[]] := by
  induction segs with
  | nil => simp [linesTerm, splitSep]
  | cons s rest ih =>
    have hs : linesep ∉ s := h s (List.mem_cons_self s rest)
    have hrest : ∀ t ∈ rest, linesep ∉ t := fun t ht => h t (List.mem_cons_of_mem _ ht)
    rw [linesTerm_cons, splitSep_append_sepfree s _ hs, ih hrest]
    rfl

theorem take_min_length (l : List α) (c : Nat) : l.take (min c l.length) = l.take c := by
  rcases Nat.le_total c l.length with h | h
  · rw [Nat.min_eq_left h]
  · rw [Nat.min_eq_right h, List.take_length, List.take_of_length_le h]

theorem drop_min_length (l : List α) (c : Nat) : l.drop (min c l.length) = l.drop c := by
  rcases Nat.le_total c l.length with h | h
  · rw [Nat.min_eq_left h]
  · rw [Nat.min_eq_right h, List.drop_length, (List.drop_eq_nil_of_le h).symm]

theorem pySliceTo_natCast (l : List α) (c : Nat) : pySliceTo l (c : Int) = l.take c := by
  unfold pySliceTo pySlice pyBound
  have h0 : ¬ ((c : Int) < 0) := by omega
  have h1 : ¬ ((0 : Int) < 0) := by omega
  rw [if_neg h0, if_neg h1, Int.toNat_ofNat, take_min_length]
  have h3 : min (0 : Int).toNat l.length = 0 := by simp
  rw [h3, List.drop_zero]

theorem pySliceFrom_natCast (l : List α) (c : Nat) : pySliceFrom l (c : Int) = l.drop c := by
  unfold pySliceFrom pySlice pyBound
  have h0 : ¬ ((c : Int) < 0) := by omega
  have h1 : ¬ ((l.length : Int) < 0) := by omega
  rw [if_neg h0, if_neg h1, Int.toNat_ofNat, Int.toNat_ofNat, Nat.min_self,
    List.take_length, drop_min_length]

theorem pySliceTo_neg_one_concat (s : List α) (a : α) : pySliceTo (s ++ [a]) (-1) = s := by
  unfold pySliceTo pySlice pyBound
  have h1 : ((-1 : Int) < 0) := by omega
  have h0 : ¬ ((0 : Int) < 0) := by omega
  rw [if_pos h1, if_neg h0]
  have h2 : (((s ++ [a]).length : Int) + (-1)).toNat = s.length := by
    rw [List.length_append, List.length_cons, List.length_nil]
    omega
  have h3 : min (0 : Int).toNat (s ++ [a]).length = 0 := by simp
  rw [h2, h3, List.drop_zero, List.take_left]

/-- The `rows` local of `delete_char_at` evaluated on separator-terminated
content: the separator-suffixed rows, with the synthetic empty row dropped. -/
theorem delete_rows_linesTerm (segs : List (List Char)) (h : ∀ s ∈ segs, linesep ∉ s) :
    (let rows0 := (splitSep (linesTerm segs)).map (fun x => x ++ [linesep])
     if rows0.getLast? = some [linesep] then rows0.dropLast else rows0)
      = segs.map (fun s => s ++ [linesep]) := by
  dsimp only
  rw [splitSep_linesTerm segs h, List.map_append]
  simp only [List.map_cons, List.map_nil, List.nil_append]
  rw [List.getLast?_concat, if_pos rfl, List.dropLast_concat]

theorem filterMap_get?_range' (l : List α) : ∀ (n a : Nat),
    (List.range' a n).filterMap l.get? = (l.drop a).take n := by
  intro n
  induction n with
  | zero => intro a; simp
  | succ n ih =>
    intro a
    rw [List.range'_succ, List.filterMap_cons]
    cases hx : l.get? a with
    | none =>
      have hlen : l.length ≤ a := List.get?_eq_none.mp hx
      rw [ih (a + 1), List.drop_eq_nil_of_le hlen, List.drop_eq_nil_of_le (by omega)]
      simp
    | some v =>
      have hlt : a < l.length := by
        by_contra hge
        rw [List.get?_eq_none.mpr (by omega)] at hx
        cases hx
      have hv : v = l[a] := by
        rw [List.get?_eq_getElem?, List.getElem?_eq_getElem hlt] at hx
        cases hx
        rfl
      rw [ih (a + 1), List.drop_eq_getElem_cons hlt, hv, List.take_succ_cons]

theorem pySlice_eq_pySliceIdx (l : List α) (a b : Int) : pySlice l a b = pySliceIdx l a b := by
  unfold pySlice pySliceIdx
  rw [filterMap_get?_range']
  rcases Nat.le_total (pyBound l.length a) (pyBound l.length b) with h | h
  · have h2 : pyBound l.length a + (pyBound l.length b - pyBound l.length a)
        = pyBound l.length b := by omega
    rw [List.take_drop, h2]
  · have h1 : pyBound l.length b - pyBound l.length a = 0 := by omega
    rw [h1, List.take_zero]
    apply List.drop_eq_nil_of_le
    rw [List.length_take]
    omega

/-- Master computation: `delete_char_at` on separator-terminated content
with an in-range line, reduced to the row-set/concatenate form of the
source. -/
theorem delete_char_at_linesTerm_eq (segs : List (List Char))
    (h : ∀ s ∈ segs, linesep ∉ s) (line : Nat) (hlt : line < segs.length) (column : Int) :
    delete_char_at (linesTerm segs) (line : Int) column
      = ((segs.map (fun s => s ++ [linesep])).set line
          (if column = -1 then pySliceTo (segs.getD line [] ++ [linesep]) column
           else pySliceTo (segs.getD line [] ++ [linesep]) column
             ++ pySliceFrom (segs.getD line [] ++ [linesep]) (column + 1))).flatten := by
  unfold delete_char_at
  dsimp only
  rw [splitSep_linesTerm segs h]
  simp only [List.map_append, List.map_cons, List.map_nil, List.nil_append,
    List.getLast?_concat, if_true, List.dropLast_concat]
  have hc : 0 ≤ (line : Int) ∧
      (line : Int) ≤ (((segs.map (fun s => s ++ [linesep])).length : Int)) - 1 := by
    rw [List.length_map]
    omega
  rw [if_pos hc, Int.toNat_ofNat]
  have hrow : (segs.map (fun s => s ++ [linesep])).getD line []
      = segs.getD line [] ++ [linesep] := by
    simp [List.getD_eq_getElem?_getD, List.getElem?_map,
      List.getElem?_eq_getElem (show line < segs.length from hlt)]
  rw [hrow]

/-! ### Claim theorems (first batch) -/

/-- C1: `get_text_view` is total (it is a Lean function), pure (it reads
its arguments and builds a new string), and for every content and all
integer arguments it equals the split / row-slice / per-row-column-slice /
rejoin composite under Python sequence-slicing semantics (stated through
the independent index-traversal formulation `get_text_view_slicing`); and
on the fixture content, `get_text_view(0,3,0,8)` returns
`"a-012345\nb-012345\nc-0123"`. -/
theorem get_text_view_matches_slicing :
    (∀ (content : List Char) (sl el sc ec : Int),
        get_text_view content sl el sc ec = get_text_view_slicing content sl el sc ec)
    ∧ get_text_view viewFixture 0 3 0 8 = "a-012345\nb-012345\nc-0123".data := by
  constructor
  · intro content sl el sc ec
    unfold get_text_view get_text_view_slicing
    dsimp only
    simp only [pySlice_eq_pySliceIdx]
  · decide

/-- C2 (amended to separator-terminated content): for content whose rows
are all separator-terminated, `delete_char_at(line, -1)` on an in-range
line removes exactly that row's trailing separator and keeps all of the
row's characters, joining it with the following row's content; and the
fixture evaluates as claimed. -/
theorem delete_sentinel_joins_rows :
    (∀ (segs : List (List Char)) (line : Nat), (∀ s ∈ segs, linesep ∉ s) →
        line < segs.length →
        delete_char_at (linesTerm segs) (line : Int) (-1)
          = linesTerm (segs.take line) ++ segs.getD line []
              ++ linesTerm (segs.drop (line + 1)))
    ∧ delete_char_at fixtureContent 0 (-1)
        = "a-0123456789b-0123456789\n\nd-0123456789\n".data := by
  constructor
  · intro segs line hfree hlt
    rw [delete_char_at_linesTerm_eq segs hfree line hlt (-1), if_pos rfl,
      pySliceTo_neg_one_concat]
    have hset : (segs.map (fun s => s ++ [linesep])).set line (segs.getD line [])
        = (segs.map (fun s => s ++ [linesep])).take line
          ++ segs.getD line [] :: (segs.map (fun s => s ++ [linesep])).drop (line + 1) :=
      List.set_eq_take_cons_drop _ (by rw [List.length_map]; exact hlt)
    rw [hset, List.flatten_append, List.flatten_cons, ← List.map_take, ← List.map_drop]
    simp [linesTerm, List.append_assoc]
  · decide

/-- C2 witness: the general conjunct applied to the fixture rows at line 0. -/
theorem delete_sentinel_joins_rows_witness :
    delete_char_at (linesTerm segsFixture) ((0 : Nat) : Int) (-1)
      = linesTerm (segsFixture.take 0) ++ segsFixture.getD 0 []
          ++ linesTerm (segsFixture.drop 1) :=
  delete_sentinel_joins_rows.1 segsFixture 0 (by decide) (by decide)

/-- C2 counterexample: on content `"a\nb"`, whose last row is not
separator-terminated, deleting at `(0, -1)` yields `"ab\n"` — the
separator between the rows is removed but a new trailing separator
appears, so the result is not `"ab"` as the claim (quantified over every
content) requires. -/
theorem delete_sentinel_counterexample :
    delete_char_at "a\nb".data 0 (-1) = "ab\n".data ∧
      ("ab\n".data : List Char) ≠ "ab".data := by decide

/-- C3 (amended to separator-terminated content): deleting at an in-range
line and an in-range column `0 ≤ col < row length` removes exactly the
character at that column from the addressed row; the row's trailing
separator (and everything else) is intact. -/
theorem delete_in_range_column :
    ∀ (segs : List (List Char)) (line col : Nat), (∀ s ∈ segs, linesep ∉ s) →
      line < segs.length → col < (segs.getD line []).length →
      delete_char_at (linesTerm segs) (line : Int) (col : Int)
        = linesTerm (segs.set line ((segs.getD line []).eraseIdx col)) := by
  intro segs line col hfree hlt hcol
  have hneg : ¬ ((col : Int) = -1) := by omega
  rw [delete_char_at_linesTerm_eq segs hfree line hlt (col : Int), if_neg hneg,
    pySliceTo_natCast]
  have hc1 : ((col : Int) + 1) = ((col + 1 : Nat) : Int) := by omega
  rw [hc1, pySliceFrom_natCast]
  rw [List.take_append_of_le_length (by omega),
    List.drop_append_of_le_length (by omega)]
  rw [← List.append_assoc, ← List.eraseIdx_eq_take_drop_succ]
  rw [linesTerm, List.map_set]

/-- C3 witness: the theorem applied to the fixture rows at line 1,
column 3. -/
theorem delete_in_range_column_witness :
    delete_char_at (linesTerm segsFixture) ((1 : Nat) : Int) ((3 : Nat) : Int)
      = linesTerm (segsFixture.set 1 ((segsFixture.getD 1 []).eraseIdx 3)) :=
  delete_in_range_column segsFixture 1 3 (by decide) (by decide) (by decide)

/-- C3 counterexample: on content `"ab"` (no trailing separator), deleting
the in-range character at `(0, 0)` yields `"b\n"`, not `"b"`: the result
gains a separator the content never had, so the claim quantified over
every content fails. -/
theorem delete_in_range_counterexample :
    delete_char_at "ab".data 0 0 = "b\n".data ∧
      ("b\n".data : List Char) ≠ "b".data := by decide

/-- C4 (amended to separator-terminated or empty content): with `line`
outside `[0, row_count - 1]` the delete is a no-op for any column — the
stored content is unchanged and no fault occurs. -/
theorem delete_out_of_range_noop :
    ∀ (segs : List (List Char)) (line column : Int), (∀ s ∈ segs, linesep ∉ s) →
      (line < 0 ∨ (segs.length : Int) ≤ line) →
      delete_char_at (linesTerm segs) line column = linesTerm segs := by
  intro segs line column hfree hout
  unfold delete_char_at
  dsimp only
  rw [splitSep_linesTerm segs hfree]
  simp only [List.map_append, List.map_cons, List.map_nil, List.nil_append,
    List.getLast?_concat, if_true, List.dropLast_concat]
  have hc : ¬ (0 ≤ line ∧
      line ≤ (((segs.map (fun s => s ++ [linesep])).length : Int)) - 1) := by
    rw [List.length_map]
    omega
  rw [if_neg hc]
  rfl

/-- C4 witness: the theorem applied to the fixture rows at the
out-of-range line 6, column 300 (the spec's own oracle pair). -/
theorem delete_out_of_range_noop_witness :
    delete_char_at (linesTerm segsFixture) 6 300 = linesTerm segsFixture :=
  delete_out_of_range_noop segsFixture 6 300 (by decide) (by decide)

/-- C4 counterexample: on content `"abc"` (no trailing separator) an
out-of-range delete is not a no-op: the stored content becomes `"abc\n"`. -/
theorem delete_out_of_range_counterexample :
    delete_char_at "abc".data 6 300 = "abc\n".data ∧
      ("abc\n".data : List Char) ≠ "abc".data := by decide

/-- C5 (amended): `insert_char_at` faults exactly when `line` is outside
the Python index range `[-row_count, row_count)` of the split rows; in
particular negative lines in `[-row_count, -1]` address rows from the end
and do not fault, so the stated bound `0 ≤ line < row_count` is not the
fault boundary. -/
theorem insert_line_fault_iff (content char : List Char) (line column : Int) :
    insert_char_at content char line column = none ↔
      line < -(((splitSep content).length : Int)) ∨
        ((splitSep content).length : Int) ≤ line := by
  rw [insert_char_at_eq_none_iff, pyGetElem_eq_none_iff]

/-- C5 counterexample: on content `"ab\n"` the split row count is 2, the
line index `-1` lies outside `[0, 2)`, yet `insert_char_at` does not fault:
it inserts into the last row. -/
theorem insert_negative_line_no_fault :
    (splitSep "ab\n".data).length = 2 ∧
      insert_char_at "ab\n".data "X".data (-1) 0 = some "ab\nX".data := by decide

/-- C6 (amended): with a valid line, any column at or beyond the row
length (row length included: append at end of row) splices `char` at the
end of the row — slicing clamps, so no fault occurs there. -/
theorem insert_column_clamps (content char : List Char) (line column : Int) (row : List Char)
    (hrow : pyGetElem (splitSep content) line = some row)
    (hcol : (row.length : Int) ≤ column) :
    insert_char_at content char line column
      = some (joinSep (pySetElem (splitSep content) line (row ++ char))) := by
  unfold insert_char_at
  dsimp only
  rw [hrow]
  dsimp only
  rw [pySliceTo_of_length_le row column hcol, pySliceFrom_of_length_le row column hcol,
    List.append_nil]

/-- C6 witness: on content `"ab\n"`, row 0 has length 2 and column 5 lies
beyond it; the theorem applies and the character is appended. -/
theorem insert_column_clamps_witness :
    insert_char_at "ab\n".data "X".data 0 5
      = some (joinSep (pySetElem (splitSep "ab\n".data) 0 ("ab".data ++ "X".data))) :=
  insert_column_clamps "ab\n".data "X".data 0 5 "ab".data (by decide) (by decide)

/-- C6 counterexample: column 5 is strictly beyond row 0's length 2 on
content `"ab\n"`, yet the call does not fault — it appends. -/
theorem insert_beyond_row_no_fault :
    (("ab".data : List Char).length : Int) < 5 ∧
      insert_char_at "ab\n".data "X".data 0 5 = some "abX\n".data := by decide

/-- C7 (code bug): at scroll offset `line_start = 1`, `column_start = 0`
with height 3 and width 4, the painted window computed by the source
(`text_column_end` reads `text_line_start`) differs from the claimed
`get_text_view(line_start, line_start+height-1, column_start,
column_start+width-1)`. -/
theorem show_buffer_window_mismatch :
    show_buffer_content c7State = "ghij\nmnop".data ∧
      claimed_window c7State = "ghi\nmno".data ∧
      show_buffer_content c7State ≠ claimed_window c7State := by decide

/-- C10: Backspace (key 127) at cursor `(0, 0)` is a silent no-op: the
editor state is unchanged, the returned cursor is `(0, 0)`, and the
message is the empty string (the Backspace branch matched, so no
"Unknown key" report). -/
theorem backspace_at_origin_noop (e : TextEditor) :
    handle_keyboard_input e 0 0 KEY_BACKSPACE = .next e 0 0 [] := by
  simp [handle_keyboard_input, KEY_LEFT, KEY_RIGHT, KEY_DOWN, KEY_UP, KEY_DC,
    KEY_BACKSPACE, KEY_ENTER, KEY_ESC]

/-- C8: with the cursor on the last visible text row (`y = height - 2`),
the Down key increments `line_start` exactly when
`line_start + (height - 1) < total_row_count`; otherwise neither the
cursor nor `line_start` changes (only the status message is set, to the
"Unknown key" report the fall-through produces); and when `y < height - 2`
the Down key moves the cursor instead, so the in-viewport move and the
scroll are mutually exclusive. -/
theorem down_key_scroll_boundary :
    (∀ (e : TextEditor) (x y : Int), y = e.term_height - 2 →
        e.text_line_start + (e.term_height - 1) < ((splitSep e.content).length : Int) →
        handle_keyboard_input e x y KEY_DOWN
          = .next { e with text_line_start := e.text_line_start + 1 } x y [])
    ∧ (∀ (e : TextEditor) (x y : Int), y = e.term_height - 2 →
        ¬ e.text_line_start + (e.term_height - 1) < ((splitSep e.content).length : Int) →
        handle_keyboard_input e x y KEY_DOWN = .next e x y (unknown_key_message KEY_DOWN))
    ∧ (∀ (e : TextEditor) (x y : Int), y < e.term_height - 2 →
        handle_keyboard_input e x y KEY_DOWN = .next e x (y + 1) []) := by
  refine ⟨fun e x y hy hs => ?_, fun e x y hy hns => ?_, fun e x y hlt => ?_⟩
  · unfold handle_keyboard_input
    rw [if_neg (by simp [KEY_DOWN, KEY_LEFT]), if_neg (by simp [KEY_DOWN, KEY_RIGHT]),
      if_neg (by rintro ⟨-, hc⟩; omega),
      if_pos (⟨rfl, hy, by unfold text_line_end; omega⟩ :
        KEY_DOWN = KEY_DOWN ∧ can_scroll_down e y)]
  · unfold handle_keyboard_input
    rw [if_neg (by simp [KEY_DOWN, KEY_LEFT]), if_neg (by simp [KEY_DOWN, KEY_RIGHT]),
      if_neg (by rintro ⟨-, hc⟩; omega),
      if_neg (by rintro ⟨-, -, hc⟩; unfold text_line_end at hc; omega),
      if_neg (by simp [KEY_DOWN, KEY_UP]), if_neg (by simp [KEY_DOWN, KEY_UP]),
      if_neg (by simp [KEY_DOWN, KEY_DC]), if_neg (by simp [KEY_DOWN, KEY_BACKSPACE]),
      if_neg (by decide), if_neg (by simp [KEY_DOWN, KEY_ENTER]),
      if_neg (by simp [KEY_DOWN, KEY_ESC])]
  · unfold handle_keyboard_input
    rw [if_neg (by simp [KEY_DOWN, KEY_LEFT]), if_neg (by simp [KEY_DOWN, KEY_RIGHT]),
      if_pos (⟨rfl, hlt⟩ : KEY_DOWN = KEY_DOWN ∧ y < e.term_height - 2)]

/-- C8 witness: all three conjuncts at concrete sessions — a scroll at the
boundary with rows below, the no-op (message-only) case with no rows
below, and the in-viewport move. -/
theorem down_key_scroll_boundary_witness :
    handle_keyboard_input c8ScrollState 0 1 KEY_DOWN
        = .next { c8ScrollState with text_line_start := c8ScrollState.text_line_start + 1 }
            0 1 [] ∧
      handle_keyboard_input c8NoScrollState 0 1 KEY_DOWN
        = .next c8NoScrollState 0 1 (unknown_key_message KEY_DOWN) ∧
      handle_keyboard_input c8ScrollState 0 0 KEY_DOWN = .next c8ScrollState 0 (0 + 1) [] :=
  ⟨down_key_scroll_boundary.1 c8ScrollState 0 1 (by decide) (by decide),
   down_key_scroll_boundary.2.1 c8NoScrollState 0 1 (by decide) (by decide),
   down_key_scroll_boundary.2.2 c8ScrollState 0 0 (by decide)⟩

/-- Every non-Enter dispatch step preserves the terminal height and the
cursor bounds `0 ≤ y ≤ height - 2`, `0 ≤ x`. -/
theorem step_inv (e : TextEditor) (x y key : Int) (hkey : key ≠ KEY_ENTER)
    (hy0 : 0 ≤ y) (hy1 : y ≤ e.term_height - 2) (hx : 0 ≤ x) :
    stepOk e (step (e, x, y) key) := by
  unfold step handle_keyboard_input
  dsimp only
  by_cases h1 : key = KEY_LEFT ∧ x > 0
  · rw [if_pos h1]; exact ⟨rfl, hy0, hy1, by omega⟩
  rw [if_neg h1]
  by_cases h2 : key = KEY_RIGHT ∧ x < e.term_width
  · rw [if_pos h2]; exact ⟨rfl, hy0, hy1, by omega⟩
  rw [if_neg h2]
  by_cases h3 : key = KEY_DOWN ∧ y < e.term_height - 2
  · rw [if_pos h3]; exact ⟨rfl, by omega, by omega, hx⟩
  rw [if_neg h3]
  by_cases h4 : key = KEY_DOWN ∧ can_scroll_down e y
  · rw [if_pos h4]; exact ⟨rfl, hy0, hy1, hx⟩
  rw [if_neg h4]
  by_cases h5 : key = KEY_UP ∧ y > 0
  · rw [if_pos h5]; exact ⟨rfl, by omega, by omega, hx⟩
  rw [if_neg h5]
  by_cases h6 : key = KEY_UP ∧ can_scroll_up e y
  · rw [if_pos h6]; exact ⟨rfl, hy0, hy1, hx⟩
  rw [if_neg h6]
  by_cases h7 : key = KEY_DC
  · rw [if_pos h7]; exact ⟨rfl, hy0, hy1, hx⟩
  rw [if_neg h7]
  by_cases h8 : key = KEY_BACKSPACE
  · rw [if_pos h8]
    by_cases h8a : x = 0 ∧ y > 0
    · rw [if_pos h8a]; exact ⟨rfl, hy0, hy1, hx⟩
    rw [if_neg h8a]
    by_cases h8b : x > 0
    · rw [if_pos h8b]; exact ⟨rfl, hy0, hy1, hx⟩
    rw [if_neg h8b]
    exact ⟨rfl, hy0, hy1, hx⟩
  rw [if_neg h8]
  by_cases h9 : ascii_isprint key ∨ ascii_isblank key
  · rw [if_pos h9]
    cases hins : insert_char_at e.content [Char.ofNat key.toNat] (e.text_line_start + y)
        (e.text_column_start + x) with
    | none => exact trivial
    | some c => exact ⟨rfl, hy0, hy1, by omega⟩
  rw [if_neg h9, if_neg hkey]
  by_cases h11 : key = KEY_ESC
  · rw [if_pos h11]; exact trivial
  rw [if_neg h11]
  exact ⟨rfl, hy0, hy1, hx⟩

/-- The cursor bounds are preserved along any run without the Enter key. -/
theorem run_inv (keys : List Int) : ∀ (s : TextEditor × Int × Int) (e : TextEditor) (x y : Int),
    (∀ k ∈ keys, k ≠ KEY_ENTER) →
    cursorOk s.1.term_height s.2.1 s.2.2 →
    run s keys = some (e, x, y) → cursorOk e.term_height x y := by
  induction keys with
  | nil =>
    intro s e x y _ hinv hrun
    unfold run at hrun
    cases hrun
    exact hinv
  | cons k ks ih =>
    intro s e x y hkeys hinv hrun
    obtain ⟨se, sx, sy⟩ := s
    unfold run at hrun
    cases hstep : step (se, sx, sy) k with
    | none => rw [hstep] at hrun; cases hrun
    | some s1 =>
      rw [hstep] at hrun
      obtain ⟨e1, x1, y1⟩ := s1
      have hk : k ≠ KEY_ENTER := hkeys k (List.mem_cons_self k ks)
      have hks : ∀ t ∈ ks, t ≠ KEY_ENTER := fun t ht => hkeys t (List.mem_cons_of_mem _ ht)
      have h2 := step_inv se sx sy k hk hinv.1 hinv.2.1 hinv.2.2
      rw [hstep] at h2
      obtain ⟨hht, hcur⟩ := h2
      refine ih (e1, x1, y1) e x y hks ?_ hrun
      dsimp only
      rw [hht]
      exact hcur

/-- C9 (amended): starting from cursor `(0, 0)` in a session of height at
least 2, along any key sequence that avoids the Enter key (code 10) every
reachable state satisfies `0 ≤ y ≤ height - 2` and `0 ≤ x`.  (Enter
increments `y` without any bound check, so the unrestricted claim fails.) -/
theorem cursor_invariant_no_enter :
    ∀ (e0 : TextEditor) (keys : List Int), 2 ≤ e0.term_height →
      (∀ k ∈ keys, k ≠ KEY_ENTER) →
      ∀ (e : TextEditor) (x y : Int), run (e0, 0, 0) keys = some (e, x, y) →
      0 ≤ y ∧ y ≤ e.term_height - 2 ∧ 0 ≤ x := by
  intro e0 keys hh hkeys e x y hrun
  have hc : cursorOk e0.term_height 0 0 := ⟨le_refl 0, by omega, le_refl 0⟩
  exact run_inv keys (e0, 0, 0) e x y hkeys hc hrun

/-- C9 witness: a Down then Right run on a height-5 session ends at cursor
`(1, 1)`, inside the bounds. -/
theorem cursor_invariant_witness :
    0 ≤ (1 : Int) ∧ (1 : Int) ≤ c9RunState.term_height - 2 ∧ 0 ≤ (1 : Int) :=
  cursor_invariant_no_enter c9RunState [KEY_DOWN, KEY_RIGHT] (by decide) (by decide)
    c9RunState 1 1 (by decide)

/-- C9 counterexample: from `(0, 0)` on an empty height-3 buffer, two
Enter keys reach the state with cursor `y = 2`, which violates
`y ≤ height - 2 = 1` — so the unrestricted invariant claim is false. -/
theorem cursor_invariant_counterexample :
    run (c9Start, 0, 0) [KEY_ENTER, KEY_ENTER]
        = some ({ c9Start with content := "\n\n".data }, 0, 2) ∧
      ¬ ((2 : Int) ≤ c9Start.term_height - 2) := by decide

end Elumen
